import Mathlib

/-!
Verification of the mavconn connection layer from mavconn_interface.cpp:
the channel registry (MAVConnInterface::new_channel, delete_channel,
channes_available) and the endpoint descriptor parser (url_parse_host,
url_parse_query, url_parse_serial, url_parse_udp, url_parse_tcp_client,
url_parse_tcp_server, MAVConnInterface::open_url).

Modelling conventions: C++ std::string iterator ranges become List Char,
the static std::set of allocated channel ids becomes Finset Nat, std::stoi
becomes the stoi function below, and C++ exceptions become Except values.
The constant MAVLINK_COMM_NUM_BUFFERS is defined in an external mavlink
header, so it is kept as an explicit parameter N of the registry
operations. The uint8_t system and component ids are Nat values; the
narrowing assignment from int to uint8_t is written as emod 256.
-/

namespace Mavconn

/-- Loop of MAVConnInterface::new_channel: starting at candidate chan and
with fuel remaining loop iterations, return the first candidate id that is
not in the allocated set, or none when the fuel runs out. -/
def findFreeFrom (s : Finset ℕ) : ℕ → ℕ → Option ℕ
  | _, 0 => none
  | chan, fuel + 1 => if chan ∈ s then findFreeFrom s (chan + 1) fuel else some chan

/-- MAVConnInterface::new_channel: scan ids 0 .. N-1 in increasing order,
insert into the allocated set and return the first free id; when all N ids
are taken, log a channel overrun, return -1 and leave the set unchanged.
N stands for MAVLINK_COMM_NUM_BUFFERS. -/
def new_channel (N : ℕ) (s : Finset ℕ) : Int × Finset ℕ :=
  match findFreeFrom s 0 N with
  | some chan => ((chan : Int), insert chan s)
  | none => (-1, s)

/-- MAVConnInterface::delete_channel: erase chan from the allocated set.
The C++ code erases the iterator returned by find, so the call is only
defined when chan is currently allocated. -/
def delete_channel (s : Finset ℕ) (chan : ℕ) : Finset ℕ := s.erase chan

/-- MAVConnInterface::channes_available: N minus the size of the allocated
set, with N standing for MAVLINK_COMM_NUM_BUFFERS. -/
def channes_available (N : ℕ) (s : Finset ℕ) : Int := (N : Int) - s.card

theorem findFreeFrom_zero (s : Finset ℕ) (a : ℕ) : findFreeFrom s a 0 = none := rfl

theorem findFreeFrom_succ (s : Finset ℕ) (a n : ℕ) :
    findFreeFrom s a (n + 1) =
      if a ∈ s then findFreeFrom s (a + 1) n else some a := rfl

theorem findFreeFrom_some_spec (s : Finset ℕ) (f : ℕ) :
    ∀ (a c : ℕ), findFreeFrom s a f = some c →
      a ≤ c ∧ c < a + f ∧ c ∉ s ∧ ∀ k, a ≤ k → k < c → k ∈ s := by
  induction f with
  | zero =>
    intro a c h
    rw [findFreeFrom_zero] at h
    exact Option.noConfusion h
  | succ n ih =>
    intro a c h
    rw [findFreeFrom_succ] at h
    by_cases hm : a ∈ s
    · rw [if_pos hm] at h
      obtain ⟨h1, h2, h3, h4⟩ := ih (a + 1) c h
      refine ⟨by omega, by omega, h3, fun k hk1 hk2 => ?_⟩
      rcases eq_or_lt_of_le hk1 with heq | hlt
      · exact heq ▸ hm
      · exact h4 k (by omega) hk2
    · rw [if_neg hm] at h
      obtain rfl : a = c := Option.some.inj h
      exact ⟨Nat.le_refl a, by omega, hm, fun k hk1 hk2 => absurd hk2 (by omega)⟩

theorem findFreeFrom_none_spec (s : Finset ℕ) (f : ℕ) :
    ∀ (a : ℕ), findFreeFrom s a f = none →
      ∀ k, a ≤ k → k < a + f → k ∈ s := by
  induction f with
  | zero => intro a _ k _ h2; exact absurd h2 (by omega)
  | succ n ih =>
    intro a h k h1 h2
    rw [findFreeFrom_succ] at h
    by_cases hm : a ∈ s
    · rw [if_pos hm] at h
      rcases eq_or_lt_of_le h1 with heq | hlt
      · exact heq ▸ hm
      · exact ih (a + 1) h k (by omega) (by omega)
    · rw [if_neg hm] at h
      exact Option.noConfusion h

theorem new_channel_eq_some (N : ℕ) (s : Finset ℕ) (m : ℕ)
    (hff : findFreeFrom s 0 N = some m) :
    new_channel N s = ((m : Int), insert m s) := by
  unfold new_channel
  rw [hff]

theorem new_channel_eq_none (N : ℕ) (s : Finset ℕ)
    (hff : findFreeFrom s 0 N = none) :
    new_channel N s = (-1, s) := by
  unfold new_channel
  rw [hff]

theorem new_channel_spec (N : ℕ) (s : Finset ℕ) (c : ℕ) (hc : c < N) (hcs : c ∉ s) :
    ∃ m, m < N ∧ m ∉ s ∧ (∀ k, k < N → k ∉ s → m ≤ k) ∧
      new_channel N s = ((m : Int), insert m s) := by
  cases hff : findFreeFrom s 0 N with
  | none =>
    exact absurd (findFreeFrom_none_spec s N 0 hff c (Nat.zero_le c) (by omega)) hcs
  | some m =>
    obtain ⟨-, h2, h3, h4⟩ := findFreeFrom_some_spec s N 0 m hff
    refine ⟨m, by omega, h3, fun k hk1 hk2 => ?_, new_channel_eq_some N s m hff⟩
    by_contra hlt
    push_neg at hlt
    exact hk2 (h4 k (Nat.zero_le k) hlt)

theorem new_channel_fresh (N : ℕ) (s t : Finset ℕ) (c : ℕ)
    (h : new_channel N s = ((c : Int), t)) : c ∉ s ∧ t = insert c s := by
  cases hff : findFreeFrom s 0 N with
  | none =>
    rw [new_channel_eq_none N s hff, Prod.mk.injEq] at h
    exact absurd h.1 (by omega)
  | some m =>
    rw [new_channel_eq_some N s m hff, Prod.mk.injEq] at h
    obtain ⟨h1, h2⟩ := h
    have hm : m = c := by exact_mod_cast h1
    subst hm
    obtain ⟨-, -, h3, -⟩ := findFreeFrom_some_spec s N 0 m hff
    exact ⟨h3, h2.symm⟩

/-- C1: whenever at least one id below N is unallocated, new_channel
returns the smallest unallocated id and inserts it into the allocated
set; in particular the allocation performed right after releasing a
channel with delete_channel returns the lowest free id of the resulting
set. -/
theorem new_channel_returns_lowest_free (N : ℕ) (s : Finset ℕ)
    (hfree : ∃ c, c < N ∧ c ∉ s) :
    (∃ m, m < N ∧ m ∉ s ∧ (∀ k, k < N → k ∉ s → m ≤ k) ∧
        new_channel N s = ((m : Int), insert m s)) ∧
      ∀ (t : Finset ℕ) (r : ℕ), r ∈ t → r < N →
        ∃ m, m < N ∧ m ∉ delete_channel t r ∧
          (∀ k, k < N → k ∉ delete_channel t r → m ≤ k) ∧
          new_channel N (delete_channel t r) =
            ((m : Int), insert m (delete_channel t r)) := by
  obtain ⟨c, hc, hcs⟩ := hfree
  refine ⟨new_channel_spec N s c hc hcs, fun t r hr hrN => ?_⟩
  exact new_channel_spec N (delete_channel t r) r hrN (by simp [delete_channel])

theorem new_channel_returns_lowest_free_witness :
    new_channel 16 {0, 1, 3} = ((2 : Int), insert 2 {0, 1, 3}) := by
  obtain ⟨⟨m, hm1, hm2, hmin, heq⟩, -⟩ :=
    new_channel_returns_lowest_free 16 {0, 1, 3} ⟨2, by decide⟩
  have hle : m ≤ 2 := hmin 2 (by decide) (by decide)
  have h0 : m ≠ 0 := by rintro rfl; exact hm2 (by decide)
  have h1 : m ≠ 1 := by rintro rfl; exact hm2 (by decide)
  have hm : m = 2 := by omega
  subst hm
  exact heq

/-- C2: when every id below N is allocated, new_channel fails, returning
the error value -1 (the failure the spec calls ResourceExhausted, which
makes the assertion in the MAVConnInterface constructor fire) and leaving
the allocated set unchanged. -/
theorem new_channel_exhausted (N : ℕ) (s : Finset ℕ)
    (hfull : ∀ c, c < N → c ∈ s) : new_channel N s = (-1, s) := by
  cases hff : findFreeFrom s 0 N with
  | some m =>
    obtain ⟨-, h2, h3, -⟩ := findFreeFrom_some_spec s N 0 m hff
    exact absurd (hfull m (by omega)) h3
  | none => exact new_channel_eq_none N s hff

theorem new_channel_exhausted_witness :
    new_channel 2 {0, 1} = (-1, {0, 1}) :=
  new_channel_exhausted 2 {0, 1} (by decide)

/-- C3: a successful new_channel never returns an id that was already in
the allocated set, the new set is the old one plus the returned id, and a
second successful allocation from the updated set returns a different id,
so two simultaneously live connections hold distinct channel ids. -/
theorem new_channel_fresh_distinct (N : ℕ) (s t : Finset ℕ) (c : ℕ)
    (h : new_channel N s = ((c : Int), t)) :
    c ∉ s ∧ t = insert c s ∧
      ∀ (c2 : ℕ) (t2 : Finset ℕ), new_channel N t = ((c2 : Int), t2) → c2 ≠ c := by
  obtain ⟨h1, h2⟩ := new_channel_fresh N s t c h
  refine ⟨h1, h2, fun c2 t2 h3 hc2 => ?_⟩
  obtain ⟨h4, -⟩ := new_channel_fresh N t t2 c2 h3
  subst hc2
  rw [h2] at h4
  exact h4 (Finset.mem_insert_self c2 s)

theorem new_channel_fresh_distinct_witness :
    (1 : ℕ) ∉ ({0} : Finset ℕ) ∧ (2 : ℕ) ≠ (1 : ℕ) := by
  obtain ⟨h1, h2, h3⟩ :=
    new_channel_fresh_distinct 4 {0} (insert 1 {0}) 1 (by decide)
  exact ⟨h1, h3 2 (insert 2 (insert 1 {0})) (by decide)⟩

/-- Error cases of std::stoi: no digit to convert, or a value outside the
range of int. -/
inductive StoiErr where
  | invalidArgument
  | outOfRange
deriving DecidableEq

/-- Whitespace characters skipped by std::stoi (C isspace in the default
locale): space, horizontal tab, newline, vertical tab, form feed and
carriage return. -/
def isSpaceC (c : Char) : Bool :=
  c == ' ' || c == '\t' || c == '\n' || c == Char.ofNat 11 || c == Char.ofNat 12 || c == '\r'

/-- Numeric value of a run of decimal digits, most significant first. -/
def digitsToNat (l : List Char) : ℕ :=
  l.foldl (fun a c => a * 10 + (c.toNat - 48)) 0

/-- std::stoi with the default base 10: skip leading whitespace, an
optional sign, then a nonempty run of decimal digits; invalid_argument
when no digit follows, out_of_range when the value does not fit in a
32-bit int. Characters after the digit run are ignored. -/
def stoi (s : List Char) : Except StoiErr Int :=
  let s1 := s.dropWhile isSpaceC
  let sgn : Int × List Char :=
    match s1 with
    | '+' :: r => (1, r)
    | '-' :: r => (-1, r)
    | r => (1, r)
  let ds := sgn.2.takeWhile Char.isDigit
  if ds = [] then Except.error StoiErr.invalidArgument
  else
    let v : Int := sgn.1 * (digitsToNat ds : Int)
    if v < -2147483648 ∨ 2147483647 < v then Except.error StoiErr.outOfRange
    else Except.ok v

/-- std::find on a character range: split the list into the part strictly
before the first occurrence of sep and the suffix starting at that
occurrence (empty when sep does not occur). -/
def splitAtChar (sep : Char) : List Char → List Char × List Char
  | [] => ([], [])
  | c :: rest =>
    if c = sep then ([], c :: rest)
    else
      let p := splitAtChar sep rest
      (c :: p.1, p.2)

/-- std::search on character ranges: split the list around the first
occurrence of pat, returning the part before it and the part after it, or
none when pat does not occur. -/
def splitFirstOcc (pat : List Char) : List Char → Option (List Char × List Char)
  | [] => if pat = [] then some ([], []) else none
  | c :: rest =>
    if pat.isPrefixOf (c :: rest) then some ([], (c :: rest).drop pat.length)
    else
      match splitFirstOcc pat rest with
      | some pq => some (c :: pq.1, pq.2)
      | none => none

/-- Tail of url_parse_host once a colon was found: the part before the
colon (or the default host when that part is empty) together with the
std::stoi value of the part after the colon. -/
def host_with_port (pre post def_host : List Char) : Except StoiErr (List Char × Int) :=
  match stoi post with
  | Except.ok v => Except.ok ((if pre = [] then def_host else pre), v)
  | Except.error e => Except.error e

/-- url_parse_host: split a host:port token at the first colon found by
std::find. Without a colon the whole token is the host (the default host
when the token is empty) and the default port applies; with a colon the
part on the left is the host (default host when empty) and std::stoi of
the part on the right is the port. -/
def url_parse_host (host def_host : List Char) (def_port : Int) :
    Except StoiErr (List Char × Int) :=
  match splitAtChar ':' host with
  | (_, []) =>
    if host = [] then Except.ok (def_host, def_port)
    else Except.ok (host, def_port)
  | (pre, _ :: post) => host_with_port pre post def_host

/-- Pattern ids_end of url_parse_query, searched for in the query text. -/
def ids_end : List Char := "ids=".toList

/-- Tail of url_parse_query after both ids tokens were isolated: assign
std::stoi of each token to the uint8_t outputs, truncating modulo 256;
a std::stoi exception propagates. -/
def query_ids_vals (sys comp : List Char) (sysid compid : ℕ) :
    Except StoiErr (ℕ × ℕ) :=
  match stoi sys with
  | Except.error e => Except.error e
  | Except.ok sv =>
    match stoi comp with
    | Except.error e => Except.error e
    | Except.ok cv => Except.ok ((sv % 256).toNat, (cv % 256).toNat)

/-- Tail of url_parse_query after the first ids= occurrence: find the
first comma after it; without a comma log an error and leave the caller
supplied ids unchanged, otherwise parse the two surrounding tokens. -/
def query_after_ids (after_ids : List Char) (sysid compid : ℕ) :
    Except StoiErr (ℕ × ℕ) :=
  match splitAtChar ',' after_ids with
  | (_, []) => Except.ok (sysid, compid)
  | (sys, _ :: comp) => query_ids_vals sys comp sysid compid

/-- url_parse_query: an empty query, a query without any ids= occurrence
(logged as unknown query arguments) and an ids= value without a comma
(logged as an error) all leave the caller supplied ids unchanged;
otherwise the text between the first ids= occurrence and the next comma
and the text after that comma are parsed with std::stoi. -/
def url_parse_query (query : List Char) (sysid compid : ℕ) :
    Except StoiErr (ℕ × ℕ) :=
  if query = [] then Except.ok (sysid, compid)
  else
    match splitFirstOcc ids_end query with
    | none => Except.ok (sysid, compid)
    | some pq => query_after_ids pq.2 sysid compid

/-- Errors escaping MAVConnInterface::open_url: the DeviceError the parser
throws itself (the error the spec calls InvalidDescriptor), or an
exception propagating out of std::stoi. -/
inductive UrlError where
  | deviceError (module msg : String)
  | stoiInvalidArgument
  | stoiOutOfRange
deriving DecidableEq

/-- Embedding of a std::stoi exception escaping the parser. -/
def UrlError.ofStoi : StoiErr → UrlError
  | StoiErr.invalidArgument => UrlError.stoiInvalidArgument
  | StoiErr.outOfRange => UrlError.stoiOutOfRange

/-- Spec-side classifier: InvalidDescriptor corresponds to the DeviceError
values thrown by the URL parser itself, not to propagated std::stoi
exceptions. -/
def isInvalidDescriptor : UrlError → Bool
  | UrlError.deviceError _ _ => true
  | _ => false

/-- Transport constructions reachable from open_url, recording the
constructor arguments of MAVConnSerial, MAVConnUDP, MAVConnTCPClient and
MAVConnTCPServer. -/
inductive Conn where
  | serial (sys comp : ℕ) (path : List Char) (baudrate : Int)
  | udp (sys comp : ℕ) (bind_host : List Char) (bind_port : Int)
      (remote_host : List Char) (remote_port : Int)
  | tcpClient (sys comp : ℕ) (server_host : List Char) (server_port : Int)
  | tcpServer (sys comp : ℕ) (bind_host : List Char) (bind_port : Int)
deriving DecidableEq

/-- url_parse_serial: path defaults to /dev/ttyACM0, baud rate to 57600. -/
def url_parse_serial (path query : List Char) (system_id component_id : ℕ) :
    Except UrlError Conn :=
  match url_parse_host path "/dev/ttyACM0".toList 57600 with
  | Except.error e => Except.error (UrlError.ofStoi e)
  | Except.ok (file_path, baudrate) =>
    match url_parse_query query system_id component_id with
    | Except.error e => Except.error (UrlError.ofStoi e)
    | Except.ok (sid, cid) => Except.ok (Conn.serial sid cid file_path baudrate)

/-- Tail of url_parse_udp once the @ separator was found: bind pair
defaults to host 0.0.0.0 port 14555, remote pair to the empty host and
port 14550. -/
def udp_from_pairs (bind_pair remote_pair query : List Char)
    (system_id component_id : ℕ) : Except UrlError Conn :=
  match url_parse_host bind_pair "0.0.0.0".toList 14555 with
  | Except.error e => Except.error (UrlError.ofStoi e)
  | Except.ok (bind_host, bind_port) =>
    match url_parse_host remote_pair [] 14550 with
    | Except.error e => Except.error (UrlError.ofStoi e)
    | Except.ok (remote_host, remote_port) =>
      match url_parse_query query system_id component_id with
      | Except.error e => Except.error (UrlError.ofStoi e)
      | Except.ok (sid, cid) =>
        Except.ok (Conn.udp sid cid bind_host bind_port remote_host remote_port)

/-- url_parse_udp: the host part must contain an @ separating the bind
pair from the remote pair; without one a DeviceError is thrown. -/
def url_parse_udp (hosts query : List Char) (system_id component_id : ℕ) :
    Except UrlError Conn :=
  match splitAtChar '@' hosts with
  | (_, []) => Except.error (UrlError.deviceError "url" "UDP separator not found")
  | (bind_pair, _ :: remote_pair) =>
    udp_from_pairs bind_pair remote_pair query system_id component_id

/-- url_parse_tcp_client: host defaults to localhost, port to 5760. -/
def url_parse_tcp_client (host query : List Char) (system_id component_id : ℕ) :
    Except UrlError Conn :=
  match url_parse_host host "localhost".toList 5760 with
  | Except.error e => Except.error (UrlError.ofStoi e)
  | Except.ok (server_host, server_port) =>
    match url_parse_query query system_id component_id with
    | Except.error e => Except.error (UrlError.ofStoi e)
    | Except.ok (sid, cid) => Except.ok (Conn.tcpClient sid cid server_host server_port)

/-- url_parse_tcp_server: bind host defaults to 0.0.0.0, port to 5760. -/
def url_parse_tcp_server (host query : List Char) (system_id component_id : ℕ) :
    Except UrlError Conn :=
  match url_parse_host host "0.0.0.0".toList 5760 with
  | Except.error e => Except.error (UrlError.ofStoi e)
  | Except.ok (bind_host, bind_port) =>
    match url_parse_query query system_id component_id with
    | Except.error e => Except.error (UrlError.ofStoi e)
    | Except.ok (sid, cid) => Except.ok (Conn.tcpServer sid cid bind_host bind_port)

/-- Pattern proto_end of open_url, separating the scheme from the rest. -/
def proto_end : List Char := "://".toList

/-- Split of path and query in open_url: the path runs to the first
question mark after the first slash, the query is what follows the
question mark (empty when there is none). -/
def split_path_query (path_rest : List Char) : List Char × List Char :=
  match splitAtChar '?' path_rest with
  | (path, []) => (path, [])
  | (path, _ :: q) => (path, q)

/-- MAVConnInterface::open_url: a string without :// is treated as a bare
serial device path with an empty query. Otherwise the text before :// is
the scheme and the text from :// to the first slash is the host part,
both lowercased; the path runs from that slash to the first question
mark and the query is the remainder. The lowercased scheme selects udp,
tcp (client), tcp-l (server) or serial; any other scheme throws a
DeviceError. -/
def open_url (url : List Char) (system_id component_id : ℕ) :
    Except UrlError Conn :=
  match splitFirstOcc proto_end url with
  | none => url_parse_serial url [] system_id component_id
  | some pr =>
    let proto := pr.1.map Char.toLower
    let host_raw := (splitAtChar '/' pr.2).1
    let path_rest := (splitAtChar '/' pr.2).2
    let host := host_raw.map Char.toLower
    let path := (split_path_query path_rest).1
    let query := (split_path_query path_rest).2
    if proto = "udp".toList then url_parse_udp host query system_id component_id
    else if proto = "tcp".toList then url_parse_tcp_client host query system_id component_id
    else if proto = "tcp-l".toList then url_parse_tcp_server host query system_id component_id
    else if proto = "serial".toList then url_parse_serial path query system_id component_id
    else Except.error (UrlError.deviceError "url" "Unknown URL type")

theorem splitAtChar_of_not_mem (sep : Char) :
    ∀ (l : List Char), sep ∉ l → splitAtChar sep l = (l, []) := by
  intro l
  induction l with
  | nil => intro _; rfl
  | cons c t ih =>
    intro h
    have hc : ¬(c = sep) := by
      rintro rfl
      exact h (List.mem_cons_self c t)
    have ht : sep ∉ t := fun hm => h (List.mem_cons_of_mem c hm)
    simp [splitAtChar, hc, ih ht]

theorem splitAtChar_append (sep : Char) :
    ∀ (pre post : List Char), sep ∉ pre →
      splitAtChar sep (pre ++ sep :: post) = (pre, sep :: post) := by
  intro pre
  induction pre with
  | nil => intro post _; simp [splitAtChar]
  | cons c t ih =>
    intro post h
    have hc : ¬(c = sep) := by
      rintro rfl
      exact h (List.mem_cons_self c t)
    have ht : sep ∉ t := fun hm => h (List.mem_cons_of_mem c hm)
    simp [splitAtChar, hc, ih post ht]

theorem url_parse_host_split (pre post def_host : List Char) (def_port : Int)
    (h : ':' ∉ pre) :
    url_parse_host (pre ++ ':' :: post) def_host def_port =
      host_with_port pre post def_host := by
  unfold url_parse_host
  rw [splitAtChar_append ':' pre post h]

theorem url_parse_query_found (q pre rest : List Char) (sid cid : ℕ)
    (hocc : splitFirstOcc ids_end q = some (pre, rest)) :
    url_parse_query q sid cid = query_after_ids rest sid cid := by
  cases q with
  | nil =>
    rw [show splitFirstOcc ids_end ([] : List Char) = none from rfl] at hocc
    exact Option.noConfusion hocc
  | cons c t =>
    unfold url_parse_query
    rw [if_neg (List.cons_ne_nil c t), hocc]

theorem query_after_ids_no_comma (rest : List Char) (sid cid : ℕ)
    (hnc : ',' ∉ rest) :
    query_after_ids rest sid cid = Except.ok (sid, cid) := by
  unfold query_after_ids
  rw [splitAtChar_of_not_mem ',' rest hnc]

theorem query_after_ids_comma (sys comp : List Char) (sid cid : ℕ)
    (hs : ',' ∉ sys) :
    query_after_ids (sys ++ ',' :: comp) sid cid =
      query_ids_vals sys comp sid cid := by
  unfold query_after_ids
  rw [splitAtChar_append ',' sys comp hs]

theorem query_ids_vals_ok (sys comp : List Char) (sid cid : ℕ) (sv cv : Int)
    (hsv : stoi sys = Except.ok sv) (hcv : stoi comp = Except.ok cv) :
    query_ids_vals sys comp sid cid =
      Except.ok ((sv % 256).toNat, (cv % 256).toNat) := by
  unfold query_ids_vals
  rw [hsv, hcv]

/-- C5 counterexample: on the token h:1:2 the code splits at the first
colon and std::stoi stops at the second colon, so the result is host h
with port 1, not host h:1 with port 2 as the rightmost-colon rule of the
claim would give. -/
theorem url_parse_host_not_rightmost_cex :
    url_parse_host "h:1:2".toList "d".toList 9 =
        Except.ok ("h".toList, (1 : Int)) ∧
      ("h".toList, (1 : Int)) ≠ ("h:1".toList, (2 : Int)) :=
  ⟨rfl, by decide⟩

/-- C5 as amended: for every host token containing a colon, the parser
splits at the first (leftmost) colon: the text left of the first colon is
the host (the default host when that text is empty) and the port is the
std::stoi value of the text right of the first colon, which parses the
longest numeric prefix of that text. -/
theorem url_parse_host_leftmost_colon (pre post def_host : List Char)
    (def_port : Int) (hpre : ':' ∉ pre) :
    url_parse_host (pre ++ ':' :: post) def_host def_port =
        host_with_port pre post def_host ∧
      ∀ v, stoi post = Except.ok v →
        url_parse_host (pre ++ ':' :: post) def_host def_port =
          Except.ok ((if pre = [] then def_host else pre), v) := by
  refine ⟨url_parse_host_split pre post def_host def_port hpre, fun v hv => ?_⟩
  rw [url_parse_host_split pre post def_host def_port hpre]
  unfold host_with_port
  rw [hv]

theorem url_parse_host_leftmost_colon_witness :
    url_parse_host ("h".toList ++ ':' :: "12".toList) "d".toList 9 =
      Except.ok ("h".toList, (12 : Int)) := by
  rw [(url_parse_host_leftmost_colon "h".toList "12".toList "d".toList 9
    (by decide)).1]
  rfl

theorem splitFirstOcc_cons_ne (p0 : Char) (ptail : List Char) (c : Char)
    (rest : List Char) (h : (p0 == c) = false) :
    splitFirstOcc (p0 :: ptail) (c :: rest) =
      match splitFirstOcc (p0 :: ptail) rest with
      | some pq => some (c :: pq.1, pq.2)
      | none => none := by
  have hpre : (p0 :: ptail).isPrefixOf (c :: rest) = false := by
    simp only [List.isPrefixOf, h, Bool.false_and]
  simp only [splitFirstOcc, hpre, Bool.false_eq_true, if_false]

theorem splitFirstOcc_cons_found (pat : List Char) (c : Char) (rest : List Char)
    (h : pat.isPrefixOf (c :: rest) = true) :
    splitFirstOcc pat (c :: rest) = some ([], (c :: rest).drop pat.length) := by
  simp only [splitFirstOcc, h, if_true]

theorem splitFirstOcc_tcp_l (rest : List Char) :
    splitFirstOcc proto_end ("tcp-l://".toList ++ rest) =
      some ("tcp-l".toList, rest) := by
  show splitFirstOcc proto_end
    ('t' :: 'c' :: 'p' :: '-' :: 'l' :: ':' :: '/' :: '/' :: rest) = _
  rw [show proto_end = ':' :: '/' :: '/' :: [] from rfl]
  rw [splitFirstOcc_cons_ne ':' ['/', '/'] 't' _ rfl]
  rw [splitFirstOcc_cons_ne ':' ['/', '/'] 'c' _ rfl]
  rw [splitFirstOcc_cons_ne ':' ['/', '/'] 'p' _ rfl]
  rw [splitFirstOcc_cons_ne ':' ['/', '/'] '-' _ rfl]
  rw [splitFirstOcc_cons_ne ':' ['/', '/'] 'l' _ rfl]
  rw [splitFirstOcc_cons_found [':', '/', '/'] ':' ('/' :: '/' :: rest)
    (by simp [List.isPrefixOf])]
  rfl

/-- C6 counterexample: the descriptor tcp-listen://0.0.0.0:5760 does not
parse; the scheme token tcp-listen is unknown to the dispatch in open_url
and a DeviceError with message Unknown URL type is thrown. -/
theorem open_url_tcp_listen_rejected :
    open_url "tcp-listen://0.0.0.0:5760".toList 1 1 =
      Except.error (UrlError.deviceError "url" "Unknown URL type") := rfl

/-- C6 as amended: the scheme token selecting the TCP listener transport
is tcp-l, and parsing tcp-l://0.0.0.0:5760 yields the TCP server
construction with bind host 0.0.0.0 and bind port 5760; more generally,
every descriptor whose scheme part is tcp-l dispatches to
url_parse_tcp_server on the lowercased host part and the query. -/
theorem open_url_tcp_l_scheme :
    (∀ sid cid : ℕ, open_url "tcp-l://0.0.0.0:5760".toList sid cid =
        Except.ok (Conn.tcpServer sid cid "0.0.0.0".toList 5760)) ∧
      ∀ (rest : List Char) (sid cid : ℕ),
        open_url ("tcp-l://".toList ++ rest) sid cid =
          url_parse_tcp_server ((splitAtChar '/' rest).1.map Char.toLower)
            (split_path_query (splitAtChar '/' rest).2).2 sid cid := by
  refine ⟨fun _ _ => rfl, fun rest sid cid => ?_⟩
  unfold open_url
  rw [splitFirstOcc_tcp_l rest]
  rfl

/-- C7: a udp descriptor whose host part contains no at-sign fails with
the DeviceError of the parser (the error the spec calls
InvalidDescriptor), as on udp://0.0.0.0:14555; when an at-sign is
present, the text left of the first one is parsed as the bind pair and
the text right of it as the remote pair. -/
theorem url_parse_udp_at_separator :
    (open_url "udp://0.0.0.0:14555".toList 1 1 =
        Except.error (UrlError.deviceError "url" "UDP separator not found")) ∧
      (∀ (hosts query : List Char) (sid cid : ℕ), '@' ∉ hosts →
        url_parse_udp hosts query sid cid =
          Except.error (UrlError.deviceError "url" "UDP separator not found")) ∧
      ∀ (bind_pair remote_pair query : List Char) (sid cid : ℕ), '@' ∉ bind_pair →
        url_parse_udp (bind_pair ++ '@' :: remote_pair) query sid cid =
          udp_from_pairs bind_pair remote_pair query sid cid := by
  refine ⟨rfl, fun hosts query sid cid h => ?_, fun bp rp query sid cid h => ?_⟩
  · unfold url_parse_udp
    rw [splitAtChar_of_not_mem '@' hosts h]
  · unfold url_parse_udp
    rw [splitAtChar_append '@' bp rp h]

theorem url_parse_udp_at_separator_witness :
    url_parse_udp "ab".toList [] 1 2 =
        Except.error (UrlError.deviceError "url" "UDP separator not found") ∧
      url_parse_udp ("ab".toList ++ '@' :: "cd".toList) [] 1 2 =
        udp_from_pairs "ab".toList "cd".toList [] 1 2 :=
  ⟨url_parse_udp_at_separator.2.1 "ab".toList [] 1 2 (by decide),
    url_parse_udp_at_separator.2.2 "ab".toList "cd".toList [] 1 2 (by decide)⟩

/-- C8 counterexample: a query whose ids= value has no comma does not
make parsing fail; url_parse_query logs an error and returns with the
caller supplied ids unchanged, and a whole descriptor carrying such a
query parses successfully. -/
theorem url_parse_query_no_comma_cex :
    url_parse_query "ids=1".toList 7 9 = Except.ok (7, 9) ∧
      open_url "serial:///dev/x?ids=1".toList 1 1 =
        Except.ok (Conn.serial 1 1 "/dev/x".toList 57600) :=
  ⟨rfl, rfl⟩

/-- C8 as amended: when the query contains ids= but no comma follows the
first occurrence, the query parser logs an error and leaves the caller
supplied identity unchanged; parsing succeeds instead of raising
InvalidDescriptor. -/
theorem url_parse_query_no_comma_ignored (q pre rest : List Char)
    (sid cid : ℕ) (hocc : splitFirstOcc ids_end q = some (pre, rest))
    (hnc : ',' ∉ rest) :
    url_parse_query q sid cid = Except.ok (sid, cid) := by
  rw [url_parse_query_found q pre rest sid cid hocc,
    query_after_ids_no_comma rest sid cid hnc]

theorem url_parse_query_no_comma_ignored_witness :
    url_parse_query "ids=5".toList 3 4 = Except.ok (3, 4) :=
  url_parse_query_no_comma_ignored "ids=5".toList [] "5".toList 3 4 rfl (by decide)

/-- C9 counterexample: the descriptor tcp://localhost:abc has a
non-numeric port token; parsing propagates the invalid_argument exception
of std::stoi, which is not the DeviceError the parser itself throws and
hence not the error the spec calls InvalidDescriptor. -/
theorem open_url_nonnumeric_port_cex :
    open_url "tcp://localhost:abc".toList 1 1 =
        Except.error UrlError.stoiInvalidArgument ∧
      isInvalidDescriptor UrlError.stoiInvalidArgument = false :=
  ⟨rfl, rfl⟩

/-- C9 as amended: for every host:port token whose port text makes
std::stoi fail with invalid_argument, url_parse_host propagates exactly
that exception out of the parser; it does not produce an undefined value,
but it also does not raise the DeviceError modelling InvalidDescriptor. -/
theorem url_parse_host_nonnumeric_propagates (pre post def_host : List Char)
    (def_port : Int) (hpre : ':' ∉ pre)
    (hpost : stoi post = Except.error StoiErr.invalidArgument) :
    url_parse_host (pre ++ ':' :: post) def_host def_port =
      Except.error StoiErr.invalidArgument := by
  rw [url_parse_host_split pre post def_host def_port hpre]
  unfold host_with_port
  rw [hpost]

theorem url_parse_host_nonnumeric_propagates_witness :
    url_parse_host ("h".toList ++ ':' :: "abc".toList) "d".toList 9 =
      Except.error StoiErr.invalidArgument :=
  url_parse_host_nonnumeric_propagates "h".toList "abc".toList "d".toList 9
    (by decide) rfl

/-- C10: the query parser recognizes the identity override by substring
search: whenever ids= first occurs anywhere in the query (also inside
another key) and a comma follows, the text between that occurrence and
the first following comma and the text from that comma to the end of the
query are parsed with std::stoi and, truncated to uint8_t, replace the
caller supplied identity. -/
theorem url_parse_query_substring_ids (q pre sys comp : List Char)
    (sid cid : ℕ) (sv cv : Int)
    (hocc : splitFirstOcc ids_end q = some (pre, sys ++ ',' :: comp))
    (hsys : ',' ∉ sys)
    (hsv : stoi sys = Except.ok sv) (hcv : stoi comp = Except.ok cv) :
    url_parse_query q sid cid =
      Except.ok ((sv % 256).toNat, (cv % 256).toNat) := by
  rw [url_parse_query_found q pre (sys ++ ',' :: comp) sid cid hocc,
    query_after_ids_comma sys comp sid cid hsys,
    query_ids_vals_ok sys comp sid cid sv cv hsv hcv]

theorem url_parse_query_substring_ids_witness :
    url_parse_query "kids=1,2".toList 42 43 =
      Except.ok ((((1 : Int)) % 256).toNat, (((2 : Int)) % 256).toNat) :=
  url_parse_query_substring_ids "kids=1,2".toList "k".toList "1".toList
    "2".toList 42 43 1 2 rfl (by decide) rfl rfl


end Mavconn
